import Mathlib

/- Verification development for ui/scripts/sync_psn.py: a shallow embedding of
the incremental PSN synchronization engine (platform selection, the provider
adapter, cache completeness classification, change detection, the titles pass,
the atomic title-index write and the per-title detail-caching procedure),
together with theorems settling the specification claims about it. -/

namespace PsnSync

/-- Platform enumeration, mirroring the psnawp PlatformType values the script
references (PS5, PS4, PS3, PS_VITA). -/
inductive PlatformType where
  | PS5
  | PS4
  | PS3
  | PSVita
deriving DecidableEq, Repr

/-- The string value of a platform (psnawp enum value, e.g. PS_VITA = "PSVITA"). -/
def PlatformType.value : PlatformType → String
  | .PS5 => "PS5"
  | .PS4 => "PS4"
  | .PS3 => "PS3"
  | .PSVita => "PSVITA"

/-- Preference order used by _choose_primary_platform (source line 43). -/
def platformPrefs : List PlatformType := [.PS5, .PS4, .PS3, .PSVita]

/-- Embedding of _choose_primary_platform (lines 42-46): scan the preference
order, returning the first preferred platform contained in the (nonempty) set;
otherwise an arbitrary member of the set (next(iter(p_set)), modelled as
head?) when nonempty, else None.  The set is modelled as a list. -/
def choosePrimaryPlatform (pset : List PlatformType) : Option PlatformType :=
  match platformPrefs.find? (fun pref => !pset.isEmpty && pset.contains pref) with
  | some p => some p
  | none => pset.head?

/-- Embedding of _platform_label (lines 48-49): p.value for a platform, "" for
None. -/
def platformLabel : Option PlatformType → String
  | some p => p.value
  | none => ""

/-- Python str.strip(): drop leading and trailing whitespace.  Defined over
the character list so that it evaluates by kernel reduction. -/
def pyStrip (s : String) : String :=
  ⟨((s.data.dropWhile Char.isWhitespace).reverse.dropWhile Char.isWhitespace).reverse⟩

/-- Python str.upper(), defined over the character list. -/
def pyUpper (s : String) : String :=
  ⟨s.data.map Char.toUpper⟩

/-- Embedding of _platform_from_label (lines 51-53): look the trimmed,
uppercased label up in the fixed map, None when absent. -/
def platformFromLabel (label : String) : Option PlatformType :=
  let key := pyUpper (pyStrip label)
  if key = "PS5" then some .PS5
  else if key = "PS4" then some .PS4
  else if key = "PS3" then some .PS3
  else if key = "PSVITA" then some .PSVita
  else none

/-- Python values as the provider adapter sees them: None, an int (Python
bools being ints are folded into this case), a string, a dict (association
list; a genuine Python dict has pairwise-distinct keys), or an object with an
attribute bag (its __dict__). -/
inductive PyVal where
  | none
  | int (n : Int)
  | str (s : String)
  | dict (entries : List (String × PyVal))
  | obj (attrs : List (String × PyVal))

/-- Python truthiness: None, 0, "", and the empty dict are falsy; objects are
truthy. -/
def pyTruthy : PyVal → Bool
  | .none => false
  | .int n => n != 0
  | .str s => s != ""
  | .dict entries => !entries.isEmpty
  | .obj _ => true

/-- Decimal value of a digit list. -/
def digitsToNat (l : List Char) : Nat :=
  l.foldl (fun acc c => acc * 10 + (c.toNat - 48)) 0

/-- Python int(str): strips whitespace, accepts an optional sign followed by
at least one decimal digit, and fails on anything else.  Defined over the
character list so that it evaluates by kernel reduction. -/
def pyIntOfString? (s : String) : Option Int :=
  match (pyStrip s).data with
  | [] => Option.none
  | c :: rest =>
    let signDigits : Int × List Char :=
      if c = '-' then ((-1 : Int), rest)
      else if c = '+' then ((1 : Int), rest)
      else ((1 : Int), c :: rest)
    if !signDigits.2.isEmpty && signDigits.2.all Char.isDigit then
      some (signDigits.1 * (digitsToNat signDigits.2 : Int))
    else Option.none

/-- Python int(x): the identity on ints, parse for strings (raising on a
non-numeric string), raising on None, dicts and plain objects. -/
def pyToInt : PyVal → Except Unit Int
  | .int n => .ok n
  | .str s =>
    match pyIntOfString? s with
    | some n => .ok n
    | Option.none => .error ()
  | _ => .error ()

/-- hasattr: only objects carry attributes in this model (Python dicts,
ints, strings and None expose none of the four grade attributes). -/
def hasAttr (v : PyVal) (k : String) : Bool :=
  match v with
  | .obj attrs => attrs.any (fun e => e.1 == k)
  | _ => false

/-- getattr with a default. -/
def getAttrD (v : PyVal) (k : String) (dflt : PyVal) : PyVal :=
  match v with
  | .obj attrs =>
    match attrs.find? (fun e => e.1 == k) with
    | some e => e.2
    | Option.none => dflt
  | _ => dflt

/-- Python (x or 0): x when truthy, the int 0 otherwise. -/
def orZero (v : PyVal) : PyVal :=
  if pyTruthy v then v else .int 0

/-- The four grade keys of _sum_trophyset_like (line 58). -/
def gradeKeys : List String := ["bronze", "silver", "gold", "platinum"]

/-- Sum of the integer values of an association list (Python
sum(v for v in d.values() if isinstance(v, int)), lines 61 and 63). -/
def sumIntValues (l : List (String × PyVal)) : Int :=
  l.foldl (fun acc e =>
    match e.2 with
    | .int n => acc + n
    | _ => acc) 0

/-- The grade-attribute branch of _sum_trophyset_like (line 59):
sum(int(getattr(obj, k, 0) or 0) for k in ("bronze","silver","gold",
"platinum")), unrolled over the four literal keys in order, propagating the
first conversion error as Python sum propagates the first exception. -/
def sumGradeAttrs (v : PyVal) : Except Unit Int :=
  match pyToInt (orZero (getAttrD v "bronze" (.int 0))) with
  | .error e => .error e
  | .ok b =>
    match pyToInt (orZero (getAttrD v "silver" (.int 0))) with
    | .error e => .error e
    | .ok s =>
      match pyToInt (orZero (getAttrD v "gold" (.int 0))) with
      | .error e => .error e
      | .ok g =>
        match pyToInt (orZero (getAttrD v "platinum" (.int 0))) with
        | .error e => .error e
        | .ok p => .ok (b + s + g + p)

/-- Embedding of _sum_trophyset_like (lines 55-64): None yields 0; an input
exposing any grade attribute takes the grade-attribute sum (which may raise);
else a dict sums its integer values; else an attribute bag sums its
integer-valued attributes; else 0.  Fallibility of the Python int() calls is
made explicit in the Except result. -/
def sumTrophysetLike (v : PyVal) : Except Unit Int :=
  match v with
  | .none => .ok 0
  | _ =>
    if gradeKeys.any (fun k => hasAttr v k) then
      sumGradeAttrs v
    else
      match v with
      | .dict entries => .ok (sumIntValues entries)
      | .obj attrs => .ok (sumIntValues attrs)
      | _ => .ok 0

/-- Extract the integer stored in a PyVal, when it is one. -/
def intOf : PyVal → Option Int
  | .int n => some n
  | _ => Option.none

/-- A value standing in a grade attribute that the int() coercion is sure to
turn into a non-negative integer: a non-negative integer, or anything falsy
(which the `or 0` guard replaces by 0). -/
def gradeValSafe (x : PyVal) : Bool :=
  match x with
  | .int n => decide (0 ≤ n)
  | _ => !pyTruthy x

/-- An association-list entry whose value, when an integer, is
non-negative. -/
def entryNonneg (e : String × PyVal) : Bool :=
  match e.2 with
  | .int n => decide (0 ≤ n)
  | _ => true

/-- Inputs on which the grade-attribute sum is guaranteed to be a
non-negative success: every grade attribute, when present, is a non-negative
integer or falsy; and every integer value in a dict or attribute bag is
non-negative. -/
def safeTrophysetInput (v : PyVal) : Bool :=
  match v with
  | .none => true
  | .int _ => true
  | .str _ => true
  | .dict entries => entries.all entryNonneg
  | .obj attrs =>
    if gradeKeys.any (fun k => hasAttr (.obj attrs) k) then
      gradeKeys.all (fun k => gradeValSafe (getAttrD (.obj attrs) k (.int 0)))
    else
      attrs.all entryNonneg

/-- Result of _cache_status (lines 184-217). -/
inductive CacheStatus where
  | missing
  | incomplete
  | complete
deriving DecidableEq, Repr

/-- One parsed row of a per-title trophy cache as _cache_status inspects it:
the TrophyID value, the Earned cell (none modelling a missing/NaN value, an
int modelling the numeric coercion pandas to_numeric applies, booleans as
1/0), and the GroupName cell rendered as a string (pandas astype(str); a NaN
cell renders as the nonempty string "nan"). -/
structure CacheRow where
  trophyID : Int
  earned : Option Int
  groupName : String
deriving DecidableEq, Repr

/-- A parsed per-title cache DataFrame: which of the three inspected columns
exist, and the rows. -/
structure CacheDF where
  hasEarnedCol : Bool
  hasGroupNameCol : Bool
  hasTrophyIDCol : Bool
  rows : List CacheRow
deriving DecidableEq, Repr

/-- The on-disk state of one per-title cache file: absent, present but
unparseable (pd.read_csv raises), or parsed. -/
inductive CacheFile where
  | absent
  | corrupt
  | parsed (df : CacheDF)
deriving DecidableEq, Repr

/-- Number of distinct TrophyID values (tdf["TrophyID"].nunique(),
line 213). -/
def uniqueTrophyIds (rows : List CacheRow) : Nat :=
  (rows.map (fun r => r.trophyID)).dedup.length

/-- Summed Earned column after numeric coercion with NaN filled as 0
(line 209). -/
def earnedSum (rows : List CacheRow) : Int :=
  rows.foldl (fun acc r => acc + r.earned.getD 0) 0

/-- Classification of a parsed cache DataFrame, following _cache_status
lines 199-217: empty frame is incomplete; a known-positive expected earned
count with no Earned column or an all-zero coerced Earned sum is incomplete;
a nonzero expected total exceeding the distinct TrophyID count (row count
when the column is absent) is incomplete; otherwise complete exactly when the
Earned column has a non-null value and some GroupName is non-blank. -/
def cacheStatusDF (tdf : CacheDF) (expectedTotal expectedEarned : Int) : CacheStatus :=
  if tdf.rows.isEmpty then .incomplete
  else
    let earnedOk := tdf.hasEarnedCol && tdf.rows.any (fun r => r.earned.isSome)
    let hasGroupNames := tdf.hasGroupNameCol && tdf.rows.any (fun r => pyStrip r.groupName != "")
    if expectedEarned > 0 && (!tdf.hasEarnedCol || earnedSum tdf.rows == 0) then .incomplete
    else if expectedTotal != 0 &&
        ((if tdf.hasTrophyIDCol then uniqueTrophyIds tdf.rows else tdf.rows.length) : Int) < expectedTotal then
      .incomplete
    else if earnedOk && hasGroupNames then .complete
    else .incomplete

/-- Embedding of _cache_status (lines 184-217) on the state of the file at
the cache path: "missing" when no file exists, "incomplete" when reading it
raises, else the DataFrame classification. -/
def cacheStatus (file : CacheFile) (expectedTotal expectedEarned : Int) : CacheStatus :=
  match file with
  | .absent => .missing
  | .corrupt => .incomplete
  | .parsed df => cacheStatusDF df expectedTotal expectedEarned

/-- One row of the title index (psn_titles.csv): Title, NPCommID, Platform,
TrophiesUnlocked, TrophiesTotal, Percent. -/
structure TitleRow where
  title : String
  npCommID : String
  platform : String
  trophiesUnlocked : Int
  trophiesTotal : Int
  percent : Int
deriving DecidableEq, Repr

/-- The previous-index row matching a given (NPCommID, Platform) pair: the
first row of the filtered frame (prev.iloc[0], line 235), or none. -/
def findPrevRow (prevTitles : List TitleRow) (npcomm plat : String) : Option TitleRow :=
  prevTitles.find? (fun p => p.npCommID == npcomm && p.platform == plat)

/-- Embedding of _should_refresh_cache (lines 219-239).  `cache` is the state
of the file at _cache_path(row.npCommID, row.platform).  A previous-titles
DataFrame that is None or empty is modelled by the empty list (the code
treats the two identically at line 227). -/
def shouldRefreshCache (cache : CacheFile) (prevTitles : List TitleRow) (row : TitleRow) : Bool :=
  let status := cacheStatus cache row.trophiesTotal row.trophiesUnlocked
  if status = .missing ∨ status = .incomplete then true
  else if prevTitles.isEmpty then false
  else
    match findPrevRow prevTitles row.npCommID row.platform with
    | Option.none => true
    | some p =>
      if row.trophiesUnlocked != p.trophiesUnlocked
          || row.trophiesTotal != p.trophiesTotal
          || row.percent != p.percent then true
      else false

/-- One raw remote title as the titles pass consumes it, with the field
extraction chains of lines 438-447 (title_name/name fallback, platform set,
int-coerced progress percent, _earned_from_title_obj) applied: the claims
under verification concern what the pass does with these observed values. -/
structure RemoteTitle where
  titleName : String
  npCommID : String
  platforms : List PlatformType
  progress : Int
  earnedNow : Int

/-- The remote aggregate oracles reached from the titles pass: the value
_groups_total (lines 66-96) returns (0 covering the error and no-data paths)
and the value _enumerate_and_count (lines 385-398) returns. -/
structure Remote where
  groupsTotal : String → PlatformType → Int
  enumerateCount : String → PlatformType → Int

/-- A remote call the titles pass can make for one title. -/
inductive RemoteCall where
  | groupsSummary (npcomm : String) (plat : PlatformType)
  | enumerate (npcomm : String) (plat : PlatformType)
deriving DecidableEq, Repr

/-- The record the titles pass accumulates for one title, with the remote
calls it made for the total. -/
structure TitlesPassResult where
  row : TitleRow
  calls : List RemoteCall

/-- Embedding of the per-title body of the titles pass (sync, lines 435-481):
choose the primary platform and its label; look up the previous-snapshot row
for (NPCommID, label); reuse the previous total without any remote call when
earned count and percent both match; otherwise, when a primary platform
exists, query the group-summary aggregate and fall back to the exhaustive
per-group count exactly when the aggregate yields zero; when no primary
platform exists the total is 0 and no remote call is made. -/
def titlesPassRecord (remote : Remote) (prevDf : List TitleRow) (t : RemoteTitle) :
    TitlesPassResult :=
  let primary := choosePrimaryPlatform t.platforms
  let label := platformLabel primary
  let prevRow : Option TitleRow :=
    if prevDf.isEmpty then Option.none
    else findPrevRow prevDf t.npCommID label
  let reuse : Option Int :=
    match prevRow with
    | some p =>
      if t.earnedNow == p.trophiesUnlocked && t.progress == p.percent
      then some p.trophiesTotal else Option.none
    | Option.none => Option.none
  let totalCalls : Int × List RemoteCall :=
    match primary with
    | some plat =>
      match reuse with
      | some prevTotal => (prevTotal, [])
      | Option.none =>
        let gt := remote.groupsTotal t.npCommID plat
        if gt == 0 then
          (remote.enumerateCount t.npCommID plat,
            [RemoteCall.groupsSummary t.npCommID plat, RemoteCall.enumerate t.npCommID plat])
        else (gt, [RemoteCall.groupsSummary t.npCommID plat])
    | Option.none => ((0 : Int), [])
  ⟨⟨t.titleName, t.npCommID, label, t.earnedNow, totalCalls.1, t.progress⟩, totalCalls.2⟩

/-- A flat-file system: path to optional content. -/
def FS := String → Option String

/-- The title-index path (TITLES_CSV). -/
def titlesPath : String := "ui/data/psn_titles.csv"

/-- The temporary path TITLES_CSV.with_suffix(".tmp.csv"). -/
def titlesTmpPath : String := "ui/data/psn_titles.tmp.csv"

/-- The backup path TITLES_CSV.with_suffix(".prev.csv"). -/
def titlesBakPath : String := "ui/data/psn_titles.prev.csv"

/-- Write a whole file. -/
def fsWrite (fs : FS) (p : String) (c : String) : FS :=
  fun q => if q = p then some c else fs q

/-- Remove a file. -/
def fsUnlink (fs : FS) (p : String) : FS :=
  fun q => if q = p then Option.none else fs q

/-- Path.replace(src -> dst): dst receives the content of src, src is
removed. -/
def fsReplace (fs : FS) (src dst : String) : FS :=
  fun q => if q = dst then fs src else if q = src then Option.none else fs q

/-- Step 1 of _write_titles (lines 246-249): write the complete new index to
the temporary path.  `content` stands for the serialized header plus rows. -/
def writeTitlesStep1 (fs : FS) (content : String) : FS :=
  fsWrite fs titlesTmpPath content

/-- Step 2 of _write_titles (lines 250-254): when the index exists, unlink
any stale backup and relocate the index to the backup path. -/
def writeTitlesStep2 (fs1 : FS) : FS :=
  if (fs1 titlesPath).isSome then
    let fs1a := if (fs1 titlesBakPath).isSome then fsUnlink fs1 titlesBakPath else fs1
    fsReplace fs1a titlesPath titlesBakPath
  else fs1

/-- Step 3 of _write_titles (line 255): rename the temporary file over the
index path. -/
def writeTitlesStep3 (fs2 : FS) : FS :=
  fsReplace fs2 titlesTmpPath titlesPath

/-- Step 4 of _write_titles (lines 256-259, the finally clause): unlink the
temporary file when it still exists. -/
def writeTitlesStep4 (fs3 : FS) : FS :=
  if (fs3 titlesTmpPath).isSome then fsUnlink fs3 titlesTmpPath else fs3

/-- Embedding of _write_titles (lines 241-259) as the composition of its four
steps. -/
def writeTitles (fs : FS) (content : String) : FS :=
  writeTitlesStep4 (writeTitlesStep3 (writeTitlesStep2 (writeTitlesStep1 fs content)))

/-- One raw trophy item as the detail-caching loop consumes it, with the
per-field extraction chains of lines 350-376 (trophy_id, name/detail/grade
fallbacks, the earned flag after the compared_user fallback and _norm_bool,
the rarity-rate fallback chain, the icon URL) applied; trophy_id stays
optional because an item without one is dropped (line 351). -/
structure TrophyItem where
  trophyId : Option Int
  name : String
  detail : String
  grade : String
  earned : Bool
  earnedRate : Option Rat
  iconUrl : String
deriving DecidableEq, Repr

/-- One written row of a per-title trophy cache (lines 367-377). -/
structure TrophyRow where
  groupID : String
  groupName : String
  trophyID : Int
  name : String
  detail : String
  grade : String
  earned : Bool
  earnedRate : Option Rat
  iconUrl : String
deriving DecidableEq, Repr

/-- The outcome of one bounded per-group trophy-list fetch: a result list, a
timeout (FuturesTimeout), or another exception. -/
inductive FetchOutcome where
  | ok (items : List TrophyItem)
  | timeout
  | error
deriving DecidableEq, Repr

/-- The remote surface _cache_trophies_for reaches for one title: the group
id to name map produced by _group_name_map_with_timeout (empty on timeout or
error), the raw group ids _group_ids yields as fallback, and the per-group
fetch oracle, a function of the group id and the deadline the call runs
under. -/
structure GroupRemote where
  nameMap : List (String × String)
  groupIds : List String
  fetch : String → Rat → FetchOutcome

/-- Embedding of the per-group fetch with retry (lines 328-340): one attempt
at the per-group timeout; on FuturesTimeout one retry at max(3.0, timeout/2);
any failure of the retry, and any non-timeout error of the first attempt,
yields the empty item list.  The second component lists the deadline of every
attempt made. -/
def fetchGroupWithRetry (fetch : String → Rat → FetchOutcome) (gid : String) (t : Rat) :
    List TrophyItem × List Rat :=
  match fetch gid t with
  | .ok items => (items, [t])
  | .timeout =>
    match fetch gid (max 3 (t / 2)) with
    | .ok items => (items, [t, max 3 (t / 2)])
    | _ => ([], [t, max 3 (t / 2)])
  | .error => ([], [t])

/-- Group display name resolution at line 347: gmap.get(gid), falling (also
on an empty stored name, which Python `or` treats like a miss) to the title
for the base-game ids and to the id itself otherwise. -/
def groupNameFor (gmap : List (String × String)) (title gid : String) : String :=
  let stored :=
    match gmap.find? (fun e => e.1 == gid) with
    | some e => e.2
    | Option.none => ""
  if stored != "" then stored
  else if gid = "default" ∨ gid = "all" ∨ gid = "0" ∨ gid = "000" then title
  else gid

/-- Order-preserving de-duplication of group ids with an explicit seen set
(lines 319-322). -/
def dedupKeepOrderAux (seenG : List String) : List String → List String
  | [] => []
  | g :: rest =>
    if g ∈ seenG then dedupKeepOrderAux seenG rest
    else g :: dedupKeepOrderAux (g :: seenG) rest

/-- De-duplicate keeping the first occurrence of each group id. -/
def dedupKeepOrder (l : List String) : List String :=
  dedupKeepOrderAux [] l

/-- The inner item loop of _cache_trophies_for (lines 349-377) for one
group: drop items without a trophy id, drop (gid, tid) pairs already seen
anywhere in this title, and append one cache row per surviving item. -/
def addGroupRows (gid gname : String) (items : List TrophyItem)
    (seen : List (String × Int)) (rows : List TrophyRow) :
    List (String × Int) × List TrophyRow :=
  match items with
  | [] => (seen, rows)
  | t :: rest =>
    match t.trophyId with
    | Option.none => addGroupRows gid gname rest seen rows
    | some tid =>
      if (gid, tid) ∈ seen then addGroupRows gid gname rest seen rows
      else
        addGroupRows gid gname rest ((gid, tid) :: seen)
          (rows ++ [⟨gid, gname, tid, t.name, t.detail, t.grade, t.earned, t.earnedRate, t.iconUrl⟩])

/-- State threaded through the group loop of _cache_trophies_for: the seen
(gid, tid) set, the accumulated rows, every fetch attempt made as a
(group id, deadline) pair, and the (group id, items used) association. -/
structure CacheLoopState where
  seen : List (String × Int)
  rows : List TrophyRow
  attempts : List (String × Rat)
  groups : List (String × List TrophyItem)

/-- One iteration of the group loop (lines 328-377). -/
def cacheGroupStep (remote : GroupRemote) (title : String) (groupTimeout : Rat)
    (st : CacheLoopState) (gid : String) : CacheLoopState :=
  let fetched := fetchGroupWithRetry remote.fetch gid groupTimeout
  let gname := groupNameFor remote.nameMap title gid
  let stepped := addGroupRows gid gname fetched.1 st.seen st.rows
  ⟨stepped.1, stepped.2,
    st.attempts ++ fetched.2.map (fun d => (gid, d)),
    st.groups ++ [(gid, fetched.1)]⟩

/-- What one run of the detail-caching procedure produced: the rows to write,
the bounded fetch attempts made, the processed groups with the items used for
each, and whether the group-summary (name map) fetch was reached at all. -/
structure CacheRunResult where
  rows : List TrophyRow
  attempts : List (String × Rat)
  groups : List (String × List TrophyItem)
  summaryFetched : Bool

/-- Embedding of _cache_trophies_for up to the write (lines 293-377): a
label resolving to no platform returns immediately with nothing fetched
(lines 305-307); otherwise group ids come from the name map keys, falling
back to the enumerated ids and finally to the single implicit "default"
group (lines 312-316); ids are de-duplicated keeping order and capped at
max_groups unless that is nonpositive (lines 318-324); each group is fetched
with the retry-on-timeout rule and its surviving items appended. -/
def cacheTrophiesFor (remote : GroupRemote) (title : String) (platLabel : String)
    (groupTimeout : Rat) (maxGroups : Int) : CacheRunResult :=
  match platformFromLabel platLabel with
  | Option.none => ⟨[], [], [], false⟩
  | some _ =>
    let gids0 := remote.nameMap.map (fun e => e.1)
    let gids1 :=
      if gids0.isEmpty then
        (if remote.groupIds.isEmpty then ["default"] else remote.groupIds)
      else gids0
    let uniq := dedupKeepOrder gids1
    let gids := if maxGroups ≤ 0 then uniq else uniq.take maxGroups.toNat
    let final := gids.foldl (cacheGroupStep remote title groupTimeout) ⟨[], [], [], []⟩
    ⟨final.rows, final.attempts, final.groups, true⟩

/-- The per-title cache path _cache_path(npcomm, plat_label) (lines
180-181). -/
def cachePath (npcomm platLabel : String) : String :=
  "ui/data/trophies/" ++ npcomm ++ "_" ++ platLabel ++ ".csv"

/-- A file system of parsed per-title caches: path to optional row list. -/
def TrophyFS := String → Option (List TrophyRow)

/-- The deduplication key of a written cache row: its (GroupID, TrophyID)
pair. -/
def rowKey (r : TrophyRow) : String × Int := (r.groupID, r.trophyID)

/-- The file effect at the end of _cache_trophies_for (lines 379-383): when
at least one row was produced the cache file at `path` is replaced wholesale
by exactly those rows; an empty row list writes nothing. -/
def cacheWriteEffect (fs : TrophyFS) (path : String) (rows : List TrophyRow) : TrophyFS :=
  if rows.isEmpty then fs
  else fun q => if q = path then some rows else fs q

/-- Classification of a parsed DataFrame never yields "missing": every branch
of _cache_status past the successful parse returns incomplete or complete. -/
theorem cacheStatusDF_ne_missing (tdf : CacheDF) (et ee : Int) :
    cacheStatusDF tdf et ee ≠ .missing := by
  unfold cacheStatusDF
  split_ifs <;> try simp
  all_goals split <;> simp

/-- Claim C2, counterexample: a cache file that exists but cannot be parsed
classifies as incomplete, not missing, contradicting the claim that parse
failure yields "missing". -/
theorem claim2_counterexample :
    cacheStatus CacheFile.corrupt 7 3 = .incomplete ∧
    CacheStatus.incomplete ≠ CacheStatus.missing := by
  exact ⟨rfl, by decide⟩

/-- Claim C2, amended: the classifier returns "missing" if and only if the
cache file does not exist; a file that exists but fails to parse classifies
as "incomplete". -/
theorem claim2_missing_iff_absent (file : CacheFile) (et ee : Int) :
    cacheStatus file et ee = .missing ↔ file = .absent := by
  cases file with
  | absent => simp [cacheStatus]
  | corrupt => simp [cacheStatus]
  | parsed df => simp [cacheStatus, cacheStatusDF_ne_missing df et ee]

/-- Claim C6, counterexample: with a per-group timeout of 4 seconds, the
retry after a timeout runs under a deadline of max(3, 4/2) = 3 seconds,
which is not half the original timeout. -/
theorem claim6_counterexample :
    (fetchGroupWithRetry (fun _ _ => FetchOutcome.timeout) "default" 4).2 =
      [4, max 3 ((4 : Rat) / 2)] ∧
    max 3 ((4 : Rat) / 2) = 3 ∧ (3 : Rat) ≠ 4 / 2 := by
  refine ⟨rfl, by norm_num, by norm_num⟩

/-- Claim C6, amended: on a timeout of the per-group fetch exactly one retry
is attempted, under a deadline of max(3, timeout/2) seconds — equal to half
the timeout whenever the timeout is at least 6 seconds (so in particular at
the 6-second default) — and if the retry also times out or errors the group
contributes the empty item list. -/
theorem claim6_retry_deadline (fetch : String → Rat → FetchOutcome) (gid : String) (t : Rat)
    (h : fetch gid t = .timeout) :
    (fetchGroupWithRetry fetch gid t).2 = [t, max 3 (t / 2)] ∧
    ((fetch gid (max 3 (t / 2)) = .timeout ∨ fetch gid (max 3 (t / 2)) = .error) →
      (fetchGroupWithRetry fetch gid t).1 = []) ∧
    (∀ items, fetch gid (max 3 (t / 2)) = .ok items →
      (fetchGroupWithRetry fetch gid t).1 = items) ∧
    (6 ≤ t → max 3 (t / 2) = t / 2) := by
  refine ⟨?_, ?_, ?_, ?_⟩
  · unfold fetchGroupWithRetry
    rw [h]
    rcases h2 : fetch gid (max 3 (t / 2)) with items | _ | _ <;> simp
  · rintro (h2 | h2) <;>
      · unfold fetchGroupWithRetry
        rw [h, h2]
  · intro items h2
    unfold fetchGroupWithRetry
    rw [h, h2]
  · intro h6
    apply max_eq_right
    linarith

/-- Claim C6, witness: a fetch that always times out, at the default
6-second timeout, is attempted exactly twice, the retry at deadline 3. -/
theorem claim6_witness :
    (fetchGroupWithRetry (fun _ _ => FetchOutcome.timeout) "default" 6).2 =
      [6, max 3 ((6 : Rat) / 2)] :=
  (claim6_retry_deadline (fun _ _ => FetchOutcome.timeout) "default" 6 rfl).1

/-- Claim C1, counterexample: for a record whose cache is complete and an
empty (or absent) previous title index, the change detector returns false,
contradicting the claim that an empty or absent previous index (no matching
row) makes it return true. -/
theorem claim1_counterexample :
    shouldRefreshCache
        (CacheFile.parsed ⟨true, true, true, [⟨1, some 1, "Base Game"⟩]⟩)
        [] ⟨"G", "NPWR1", "PS5", 1, 1, 100⟩ = false ∧
    cacheStatus (CacheFile.parsed ⟨true, true, true, [⟨1, some 1, "Base Game"⟩]⟩) 1 1 =
      .complete := by
  exact ⟨rfl, rfl⟩

/-- Claim C1, amended: for a record whose cache classifies as missing or
incomplete the change detector returns true unconditionally; for a record
whose cache classifies as complete it returns false when the previous title
index is empty or absent, returns true when the (nonempty) previous index
has no row with the same (NPCommID, Platform) pair, and with a matching row
returns true if and only if one of the earned count, total count or percent
differs from the stored value. -/
theorem claim1_change_detector (cache : CacheFile) (prev : List TitleRow) (row : TitleRow) :
    (cacheStatus cache row.trophiesTotal row.trophiesUnlocked ≠ .complete →
      shouldRefreshCache cache prev row = true) ∧
    (cacheStatus cache row.trophiesTotal row.trophiesUnlocked = .complete →
      (prev = [] → shouldRefreshCache cache prev row = false) ∧
      (prev ≠ [] → findPrevRow prev row.npCommID row.platform = Option.none →
        shouldRefreshCache cache prev row = true) ∧
      (∀ p, findPrevRow prev row.npCommID row.platform = some p →
        (shouldRefreshCache cache prev row = true ↔
          (row.trophiesUnlocked ≠ p.trophiesUnlocked ∨
           row.trophiesTotal ≠ p.trophiesTotal ∨
           row.percent ≠ p.percent)))) := by
  constructor
  · intro hne
    rcases hs : cacheStatus cache row.trophiesTotal row.trophiesUnlocked with _ | _ | _
    · simp [shouldRefreshCache, hs]
    · simp [shouldRefreshCache, hs]
    · exact absurd hs hne
  · intro hc
    refine ⟨?_, ?_, ?_⟩
    · intro hp
      subst hp
      simp [shouldRefreshCache, hc]
    · intro hne hfind
      have hne2 : prev.isEmpty = false := by
        cases prev with
        | nil => exact absurd rfl hne
        | cons a l => rfl
      simp [shouldRefreshCache, hc, hne2, hfind]
    · intro p hfind
      have hne2 : prev.isEmpty = false := by
        cases prev with
        | nil => simp [findPrevRow] at hfind
        | cons a l => rfl
      have hmem : p ∈ prev := List.mem_of_find?_eq_some hfind
      simp only [shouldRefreshCache, hc, hne2, hfind]
      constructor
      · intro hif
        by_contra hno
        push_neg at hno
        obtain ⟨h1, h2, h3⟩ := hno
        simp [h1, h2, h3] at hif
      · intro hor
        have : (row.trophiesUnlocked != p.trophiesUnlocked ||
            row.trophiesTotal != p.trophiesTotal || row.percent != p.percent) = true := by
          rcases hor with h | h | h <;> simp [h]
        simp [this]

/-- The previous-row lookup of the titles pass: the empty-frame guard of
line 452 is equivalent to plain lookup, since the lookup on an empty frame
finds nothing. -/
theorem prevRowLookup_eq (prevDf : List TitleRow) (npcomm label : String) :
    (if prevDf.isEmpty then Option.none else findPrevRow prevDf npcomm label) =
      findPrevRow prevDf npcomm label := by
  cases prevDf <;> simp [findPrevRow]

/-- Claim C3, counterexample: a title whose remote platform set is empty and
that has no previous-snapshot row falls in the "total is recomputed by
querying the group-summary aggregate" case of the claim, yet the pass makes
no remote call at all and records total 0 even though the group-summary
aggregate would yield 7. -/
theorem claim3_counterexample :
    (titlesPassRecord ⟨fun _ _ => 7, fun _ _ => 9⟩ [] ⟨"T", "NPWR1", [], 10, 2⟩).row.trophiesTotal
      = 0 ∧
    (titlesPassRecord ⟨fun _ _ => 7, fun _ _ => 9⟩ [] ⟨"T", "NPWR1", [], 10, 2⟩).calls = [] ∧
    (Remote.mk (fun _ _ => 7) (fun _ _ => 9)).groupsTotal "NPWR1" PlatformType.PS5 = 7 ∧
    (7 : Int) ≠ 0 := by
  refine ⟨rfl, rfl, rfl, by decide⟩

/-- Claim C3, amended: for every title with a nonempty platform set (so a
primary platform exists), when a previous-snapshot row for (NPCommID,
primary-platform label) exists with matching earned count and percent, its
stored total is reused and no remote call is made; in every other such case
the total is recomputed from the group-summary aggregate, the exhaustive
per-group count being used exactly when the aggregate yields zero.  Titles
with an empty platform set make no remote call and record total 0 (claim
C10). -/
theorem claim3_total_reuse (remote : Remote) (prevDf : List TitleRow) (t : RemoteTitle)
    (plat : PlatformType) (hp : choosePrimaryPlatform t.platforms = some plat) :
    ((∃ p, findPrevRow prevDf t.npCommID plat.value = some p ∧
        t.earnedNow = p.trophiesUnlocked ∧ t.progress = p.percent) →
      (titlesPassRecord remote prevDf t).calls = [] ∧
      ∀ p, findPrevRow prevDf t.npCommID plat.value = some p →
        (titlesPassRecord remote prevDf t).row.trophiesTotal = p.trophiesTotal) ∧
    ((∀ p, findPrevRow prevDf t.npCommID plat.value = some p →
        ¬(t.earnedNow = p.trophiesUnlocked ∧ t.progress = p.percent)) →
      (titlesPassRecord remote prevDf t).row.trophiesTotal =
        (if remote.groupsTotal t.npCommID plat = 0 then remote.enumerateCount t.npCommID plat
         else remote.groupsTotal t.npCommID plat) ∧
      (titlesPassRecord remote prevDf t).calls =
        (if remote.groupsTotal t.npCommID plat = 0 then
          [RemoteCall.groupsSummary t.npCommID plat, RemoteCall.enumerate t.npCommID plat]
         else [RemoteCall.groupsSummary t.npCommID plat])) := by
  have hlabel : platformLabel (some plat) = plat.value := rfl
  constructor
  · rintro ⟨p, hfind, he, hpc⟩
    have hcond : (t.earnedNow == p.trophiesUnlocked && t.progress == p.percent) = true := by
      simp [he, hpc]
    constructor
    · unfold titlesPassRecord
      rw [hp]
      simp only [hlabel]
      rw [prevRowLookup_eq, hfind]
      simp [he, hpc]
    · intro q hq
      rw [hfind] at hq
      cases hq
      unfold titlesPassRecord
      rw [hp]
      simp only [hlabel]
      rw [prevRowLookup_eq, hfind]
      simp [he, hpc]
  · intro hno
    rcases hfind : findPrevRow prevDf t.npCommID plat.value with _ | p
    · constructor <;>
        · unfold titlesPassRecord
          rw [hp]
          simp only [hlabel]
          rw [prevRowLookup_eq, hfind]
          by_cases hgt : remote.groupsTotal t.npCommID plat = 0 <;> simp [hgt]
    · have hne := hno p hfind
      have hcond : (t.earnedNow == p.trophiesUnlocked && t.progress == p.percent) = false := by
        rcases hb : t.earnedNow == p.trophiesUnlocked with _ | _
        · simp
        · rcases hb2 : t.progress == p.percent with _ | _
          · simp
          · exact absurd ⟨beq_iff_eq.mp hb, beq_iff_eq.mp hb2⟩ hne
      constructor <;>
        · unfold titlesPassRecord
          rw [hp]
          simp only [hlabel]
          rw [prevRowLookup_eq, hfind]
          simp only [hcond]
          by_cases hgt : remote.groupsTotal t.npCommID plat = 0 <;> simp [hgt]

/-- Claim C3, witness: an unchanged title (matching previous earned count 5
and percent 30) reuses the stored total and issues no remote call. -/
theorem claim3_witness :
    (titlesPassRecord ⟨fun _ _ => 7, fun _ _ => 9⟩ [⟨"T", "NPWR1", "PS4", 5, 20, 30⟩]
        ⟨"T", "NPWR1", [.PS4], 30, 5⟩).calls = [] ∧
    (titlesPassRecord ⟨fun _ _ => 7, fun _ _ => 9⟩ [⟨"T", "NPWR1", "PS4", 5, 20, 30⟩]
        ⟨"T", "NPWR1", [.PS4], 30, 5⟩).row.trophiesTotal = 20 := by
  have h := claim3_total_reuse ⟨fun _ _ => 7, fun _ _ => 9⟩ [⟨"T", "NPWR1", "PS4", 5, 20, 30⟩]
    ⟨"T", "NPWR1", [.PS4], 30, 5⟩ .PS4 rfl
  have h2 := h.1 ⟨⟨"T", "NPWR1", "PS4", 5, 20, 30⟩, rfl, rfl, rfl⟩
  exact ⟨h2.1, h2.2 ⟨"T", "NPWR1", "PS4", 5, 20, 30⟩ rfl⟩

/-- The index, temporary and backup paths are three distinct paths. -/
theorem titlesPaths_distinct :
    titlesPath ≠ titlesTmpPath ∧ titlesPath ≠ titlesBakPath ∧ titlesTmpPath ≠ titlesBakPath := by
  refine ⟨?_, ?_, ?_⟩ <;> decide

/-- Value of step 1 at any path other than the temporary path. -/
theorem writeTitlesStep1_other (fs : FS) (content : String) (p : String)
    (hp : p ≠ titlesTmpPath) : writeTitlesStep1 fs content p = fs p := by
  unfold writeTitlesStep1 fsWrite
  exact if_neg hp

/-- Value of step 1 at the temporary path: the full new content. -/
theorem writeTitlesStep1_tmp (fs : FS) (content : String) :
    writeTitlesStep1 fs content titlesTmpPath = some content := by
  unfold writeTitlesStep1 fsWrite
  simp

/-- Value of step 2 at the backup path: the old index content when the index
exists, the untouched backup otherwise. -/
theorem writeTitlesStep2_bak (g : FS) :
    writeTitlesStep2 g titlesBakPath =
      if (g titlesPath).isSome then g titlesPath else g titlesBakPath := by
  obtain ⟨_, hd2, _⟩ := titlesPaths_distinct
  unfold writeTitlesStep2 fsUnlink fsReplace
  by_cases h : (g titlesPath).isSome <;> by_cases hb : (g titlesBakPath).isSome <;>
    simp [h, hb, hd2]

/-- Value of step 2 at the temporary path: untouched. -/
theorem writeTitlesStep2_tmp (g : FS) :
    writeTitlesStep2 g titlesTmpPath = g titlesTmpPath := by
  obtain ⟨hd1, _, hd3⟩ := titlesPaths_distinct
  unfold writeTitlesStep2 fsUnlink fsReplace
  by_cases h : (g titlesPath).isSome <;> by_cases hb : (g titlesBakPath).isSome <;>
    simp [h, hb, hd3, Ne.symm hd1]

/-- Value of step 2 at the index path: removed when it existed. -/
theorem writeTitlesStep2_titles (g : FS) :
    writeTitlesStep2 g titlesPath =
      if (g titlesPath).isSome then Option.none else g titlesPath := by
  obtain ⟨_, hd2, _⟩ := titlesPaths_distinct
  unfold writeTitlesStep2 fsUnlink fsReplace
  by_cases h : (g titlesPath).isSome <;> by_cases hb : (g titlesBakPath).isSome <;>
    simp [h, hb, hd2]

/-- Value of step 2 away from the index and backup paths: untouched. -/
theorem writeTitlesStep2_other (g : FS) (p : String)
    (hp1 : p ≠ titlesPath) (hp2 : p ≠ titlesBakPath) : writeTitlesStep2 g p = g p := by
  unfold writeTitlesStep2 fsUnlink fsReplace
  by_cases h : (g titlesPath).isSome <;> by_cases hb : (g titlesBakPath).isSome <;>
    simp [h, hb, hp1, hp2]

/-- Value of step 3 at the index path: the temporary content. -/
theorem writeTitlesStep3_titles (g : FS) :
    writeTitlesStep3 g titlesPath = g titlesTmpPath := by
  unfold writeTitlesStep3 fsReplace
  simp

/-- Value of step 3 at the temporary path: removed. -/
theorem writeTitlesStep3_tmp (g : FS) :
    writeTitlesStep3 g titlesTmpPath = Option.none := by
  obtain ⟨hd1, _, _⟩ := titlesPaths_distinct
  unfold writeTitlesStep3 fsReplace
  simp [Ne.symm hd1]

/-- Value of step 3 away from the index and temporary paths: untouched. -/
theorem writeTitlesStep3_other (g : FS) (p : String)
    (hp1 : p ≠ titlesPath) (hp2 : p ≠ titlesTmpPath) : writeTitlesStep3 g p = g p := by
  unfold writeTitlesStep3 fsReplace
  simp [hp1, hp2]

/-- Step 4 does nothing when the temporary file is already gone. -/
theorem writeTitlesStep4_of_none (g : FS) (h : g titlesTmpPath = Option.none) :
    writeTitlesStep4 g = g := by
  unfold writeTitlesStep4
  simp [h]

/-- Claim C4: the title-index write creates the complete new index at the
temporary path first, leaving the index and backup paths untouched (so an
interrupt at that point leaves the previous index fully intact); it then
relocates the existing index to the single backup path, where the previous
content survives through the end of the run (exactly one prior generation);
finally the temporary file is renamed over the index path, leaving the new
content at the index path, no temporary file, and every other path
untouched. -/
theorem claim4_write_titles_atomic (fs : FS) (content : String) :
    (writeTitlesStep1 fs content) titlesPath = fs titlesPath ∧
    (writeTitlesStep1 fs content) titlesBakPath = fs titlesBakPath ∧
    (writeTitlesStep1 fs content) titlesTmpPath = some content ∧
    (∀ old, fs titlesPath = some old →
      (writeTitlesStep2 (writeTitlesStep1 fs content)) titlesBakPath = some old ∧
      writeTitles fs content titlesBakPath = some old) ∧
    writeTitles fs content titlesPath = some content ∧
    writeTitles fs content titlesTmpPath = Option.none ∧
    (∀ p, p ≠ titlesPath → p ≠ titlesBakPath → p ≠ titlesTmpPath →
      writeTitles fs content p = fs p) := by
  obtain ⟨hd1, hd2, hd3⟩ := titlesPaths_distinct
  have h1p := writeTitlesStep1_other fs content titlesPath hd1
  have h1b := writeTitlesStep1_other fs content titlesBakPath (Ne.symm hd3)
  have h1t := writeTitlesStep1_tmp fs content
  have h2t : writeTitlesStep2 (writeTitlesStep1 fs content) titlesTmpPath = some content := by
    rw [writeTitlesStep2_tmp, h1t]
  have h3t : writeTitlesStep3 (writeTitlesStep2 (writeTitlesStep1 fs content)) titlesTmpPath =
      Option.none := writeTitlesStep3_tmp _
  have h4 : writeTitles fs content =
      writeTitlesStep3 (writeTitlesStep2 (writeTitlesStep1 fs content)) := by
    unfold writeTitles
    exact writeTitlesStep4_of_none _ h3t
  refine ⟨h1p, h1b, h1t, ?_, ?_, ?_, ?_⟩
  · intro old hold
    have hbak : writeTitlesStep2 (writeTitlesStep1 fs content) titlesBakPath = some old := by
      rw [writeTitlesStep2_bak, h1p, hold]
      simp
    refine ⟨hbak, ?_⟩
    rw [h4, writeTitlesStep3_other _ _ (Ne.symm hd2) (Ne.symm hd3), hbak]
  · rw [h4, writeTitlesStep3_titles, h2t]
  · rw [h4, h3t]
  · intro p hp1 hp2 hp3
    rw [h4, writeTitlesStep3_other _ _ hp1 hp3, writeTitlesStep2_other _ _ hp1 hp2,
      writeTitlesStep1_other _ _ _ hp3]

/-- When every bounded fetch times out or errors, the per-group fetch with
retry yields the empty item list. -/
theorem fetchGroupWithRetry_allFail (fetch : String → Rat → FetchOutcome) (gid : String)
    (t : Rat) (h : ∀ g d, fetch g d = .timeout ∨ fetch g d = .error) :
    (fetchGroupWithRetry fetch gid t).1 = [] := by
  unfold fetchGroupWithRetry
  rcases h gid t with h1 | h1 <;> rw [h1]
  rcases h gid (max 3 (t / 2)) with h2 | h2 <;> rw [h2]

/-- Appending an empty item list leaves the accumulated rows unchanged. -/
theorem addGroupRows_nil (gid gname : String) (seen : List (String × Int))
    (rows : List TrophyRow) : addGroupRows gid gname [] seen rows = (seen, rows) := rfl

/-- When every bounded fetch times out or errors, the group loop never adds a
row. -/
theorem cacheLoop_rows_empty (remote : GroupRemote) (title : String) (gt : Rat)
    (h : ∀ g d, remote.fetch g d = .timeout ∨ remote.fetch g d = .error) :
    ∀ (gids : List String) (st : CacheLoopState), st.rows = [] →
      (gids.foldl (cacheGroupStep remote title gt) st).rows = [] := by
  intro gids
  induction gids with
  | nil => intro st hst; exact hst
  | cons g rest ih =>
    intro st hst
    simp only [List.foldl_cons]
    apply ih
    unfold cacheGroupStep
    simp only [fetchGroupWithRetry_allFail remote.fetch g gt h, addGroupRows_nil]
    exact hst

/-- Claim C5: the detail-caching file effect is all-or-nothing — when at
least one row is produced the cache file holds exactly those rows and no
other path changes; when no row is produced (in particular when every group
fetch times out or errors) the file system is left exactly as it was. -/
theorem claim5_cache_write_wholesale (remote : GroupRemote) (title platLabel : String)
    (gt : Rat) (mg : Int) (fs : TrophyFS) (path : String) :
    ((cacheTrophiesFor remote title platLabel gt mg).rows ≠ [] →
      cacheWriteEffect fs path (cacheTrophiesFor remote title platLabel gt mg).rows path =
        some (cacheTrophiesFor remote title platLabel gt mg).rows ∧
      ∀ q, q ≠ path →
        cacheWriteEffect fs path (cacheTrophiesFor remote title platLabel gt mg).rows q = fs q) ∧
    ((cacheTrophiesFor remote title platLabel gt mg).rows = [] →
      cacheWriteEffect fs path (cacheTrophiesFor remote title platLabel gt mg).rows = fs) ∧
    ((∀ g d, remote.fetch g d = .timeout ∨ remote.fetch g d = .error) →
      (cacheTrophiesFor remote title platLabel gt mg).rows = [] ∧
      cacheWriteEffect fs path (cacheTrophiesFor remote title platLabel gt mg).rows = fs) := by
  have hempty : (cacheTrophiesFor remote title platLabel gt mg).rows = [] →
      cacheWriteEffect fs path (cacheTrophiesFor remote title platLabel gt mg).rows = fs := by
    intro hr
    rw [hr]
    unfold cacheWriteEffect
    simp
  refine ⟨?_, hempty, ?_⟩
  · intro hne
    have hb : (cacheTrophiesFor remote title platLabel gt mg).rows.isEmpty = false := by
      cases hrows : (cacheTrophiesFor remote title platLabel gt mg).rows with
      | nil => exact absurd hrows hne
      | cons a l => rfl
    constructor
    · unfold cacheWriteEffect
      rw [hb]
      simp
    · intro q hq
      unfold cacheWriteEffect
      rw [hb]
      simp [hq]
  · intro hfail
    have hr : (cacheTrophiesFor remote title platLabel gt mg).rows = [] := by
      unfold cacheTrophiesFor
      rcases hplat : platformFromLabel platLabel with _ | p
      · rfl
      · exact cacheLoop_rows_empty remote title gt hfail _ _ rfl
    exact ⟨hr, hempty hr⟩

/-- Equation for the adapter on a dict: no grade attribute is ever visible on
a mapping, so the dict branch sums the integer values. -/
theorem sumTrophysetLike_dict (entries : List (String × PyVal)) :
    sumTrophysetLike (.dict entries) = .ok (sumIntValues entries) := rfl

/-- Equation for the adapter on an object. -/
theorem sumTrophysetLike_obj (attrs : List (String × PyVal)) :
    sumTrophysetLike (.obj attrs) =
      if gradeKeys.any (fun k => hasAttr (.obj attrs) k) then sumGradeAttrs (.obj attrs)
      else .ok (sumIntValues attrs) := rfl

/-- Equation for the safety guard on an object. -/
theorem safeTrophysetInput_obj (attrs : List (String × PyVal)) :
    safeTrophysetInput (.obj attrs) =
      if gradeKeys.any (fun k => hasAttr (.obj attrs) k) then
        gradeKeys.all (fun k => gradeValSafe (getAttrD (.obj attrs) k (.int 0)))
      else attrs.all entryNonneg := rfl

/-- The value of an association-list entry that the integer-value sum adds. -/
theorem sumIntValues_shift (l : List (String × PyVal)) (acc : Int) :
    l.foldl (fun a e =>
      match e.2 with
      | .int n => a + n
      | _ => a) acc =
    acc + sumIntValues l := by
  induction l generalizing acc with
  | nil => simp [sumIntValues]
  | cons e rest ih =>
    unfold sumIntValues
    simp only [List.foldl_cons]
    rw [ih, ih]
    rcases e with ⟨k, v⟩
    cases v <;> simp <;> try ring

/-- The integer-value sum is the sum of the integers stored in the list. -/
theorem sumIntValues_eq_filterMap (l : List (String × PyVal)) :
    sumIntValues l = (l.filterMap (fun e => intOf e.2)).sum := by
  induction l with
  | nil => rfl
  | cons e rest ih =>
    unfold sumIntValues
    simp only [List.foldl_cons]
    rw [sumIntValues_shift]
    rcases e with ⟨k, v⟩
    cases v <;> simp [List.filterMap_cons, intOf, ih]

/-- The integer-value sum of a list whose integer values are non-negative is
non-negative. -/
theorem sumIntValues_nonneg (l : List (String × PyVal)) (h : l.all entryNonneg = true) :
    0 ≤ sumIntValues l := by
  rw [sumIntValues_eq_filterMap]
  apply List.sum_nonneg
  intro x hx
  obtain ⟨e, he, hfe⟩ := List.mem_filterMap.mp hx
  have := (List.all_eq_true.mp h) e he
  rcases e with ⟨k, v⟩
  cases v <;> simp [intOf] at hfe
  subst hfe
  simpa [entryNonneg] using this

/-- A safe grade-attribute value coerces to a non-negative integer. -/
theorem gradeVal_ok (x : PyVal) (h : gradeValSafe x = true) :
    ∃ m : Int, pyToInt (orZero x) = .ok m ∧ 0 ≤ m := by
  cases x with
  | int n =>
    have hn : 0 ≤ n := by simpa [gradeValSafe] using h
    by_cases h0 : n = 0
    · subst h0
      exact ⟨0, rfl, le_refl 0⟩
    · refine ⟨n, ?_, hn⟩
      have ht : pyTruthy (.int n) = true := by simp [pyTruthy, h0]
      unfold orZero
      rw [ht]
      rfl
  | none => exact ⟨0, rfl, le_refl 0⟩
  | str s =>
    have hs : s = "" := by simpa [gradeValSafe, pyTruthy] using h
    subst hs
    exact ⟨0, rfl, le_refl 0⟩
  | dict entries =>
    have hs : entries.isEmpty = true := by simpa [gradeValSafe, pyTruthy] using h
    have : entries = [] := by
      cases entries with
      | nil => rfl
      | cons a l => simp [List.isEmpty] at hs
    subst this
    exact ⟨0, rfl, le_refl 0⟩
  | obj attrs => simp [gradeValSafe, pyTruthy] at h

/-- Claim C7, counterexample: the extractor raises on an object whose bronze
attribute is a truthy non-numeric string, and returns a negative value on a
mapping storing a negative count — so it is neither total nor non-negative
in general. -/
theorem claim7_counterexample :
    sumTrophysetLike (.obj [("bronze", .str "abc")]) = .error () ∧
    sumTrophysetLike (.dict [("x", .int (-5))]) = .ok (-5) ∧ ((-5 : Int) < 0) := by
  refine ⟨rfl, rfl, by decide⟩

/-- Claim C7, amended: the extractor returns 0 on None, and on every input
whose grade attributes are non-negative integers or falsy and whose mapping
or attribute-bag integer values are non-negative it succeeds with a
non-negative integer; a truthy non-numeric grade attribute raises, and
negative stored integers propagate to the result. -/
theorem claim7_safe_nonneg (v : PyVal) (h : safeTrophysetInput v = true) :
    (∃ n : Int, sumTrophysetLike v = .ok n ∧ 0 ≤ n) ∧
    sumTrophysetLike PyVal.none = .ok 0 := by
  refine ⟨?_, rfl⟩
  cases v with
  | none => exact ⟨0, rfl, le_refl 0⟩
  | int n => exact ⟨0, rfl, le_refl 0⟩
  | str s => exact ⟨0, rfl, le_refl 0⟩
  | dict entries =>
    refine ⟨sumIntValues entries, sumTrophysetLike_dict entries, ?_⟩
    exact sumIntValues_nonneg entries (by simpa [safeTrophysetInput] using h)
  | obj attrs =>
    by_cases hany : (gradeKeys.any (fun k => hasAttr (.obj attrs) k)) = true
    · have hall : gradeKeys.all (fun k => gradeValSafe (getAttrD (.obj attrs) k (.int 0))) = true := by
        have h2 : safeTrophysetInput (.obj attrs) = true := h
        rw [safeTrophysetInput_obj, if_pos hany] at h2
        exact h2
      have h4 := List.all_eq_true.mp hall
      obtain ⟨mb, hb, hb0⟩ := gradeVal_ok _ (h4 "bronze" (by simp [gradeKeys]))
      obtain ⟨ms, hs, hs0⟩ := gradeVal_ok _ (h4 "silver" (by simp [gradeKeys]))
      obtain ⟨mg, hg, hg0⟩ := gradeVal_ok _ (h4 "gold" (by simp [gradeKeys]))
      obtain ⟨mp, hp, hp0⟩ := gradeVal_ok _ (h4 "platinum" (by simp [gradeKeys]))
      refine ⟨mb + ms + mg + mp, ?_, by linarith⟩
      rw [sumTrophysetLike_obj, if_pos hany]
      unfold sumGradeAttrs
      rw [hb, hs, hg, hp]
    · have hall : attrs.all entryNonneg = true := by
        have h2 : safeTrophysetInput (.obj attrs) = true := h
        rw [safeTrophysetInput_obj, if_neg hany] at h2
        exact h2
      refine ⟨sumIntValues attrs, ?_, sumIntValues_nonneg attrs hall⟩
      rw [sumTrophysetLike_obj, if_neg hany]

/-- Claim C7, witness: an object carrying bronze = 3 sums to a non-negative
integer without failing. -/
theorem claim7_witness :
    (∃ n : Int, sumTrophysetLike (.obj [("bronze", .int 3)]) = .ok n ∧ 0 ≤ n) ∧
    sumTrophysetLike PyVal.none = .ok 0 :=
  claim7_safe_nonneg (.obj [("bronze", .int 3)]) (by decide)

/-- Claim C8, counterexample: a mapping holding bronze = 3 and a non-grade
integer 5 sums to 8, not to the grade-keys-only sum 3 — the dict branch has
no grade-key preference. -/
theorem claim8_counterexample :
    sumTrophysetLike (.dict [("bronze", .int 3), ("extra", .int 5)]) = .ok 8 ∧
    (8 : Int) ≠ 3 := by
  refine ⟨rfl, by decide⟩

/-- Claim C8, amended: for every mapping (pairwise-distinct keys, as in a
Python dict) the extractor returns the sum of all integer values stored in
the mapping, whichever keys they sit under — grade keys get no
preference. -/
theorem claim8_dict_sum_all (entries : List (String × PyVal))
    (h : (entries.map Prod.fst).Nodup) :
    sumTrophysetLike (.dict entries) =
      .ok ((entries.filterMap (fun e => intOf e.2)).sum) := by
  rw [sumTrophysetLike_dict, sumIntValues_eq_filterMap]

/-- Claim C8, witness: a two-entry mapping with one non-integer value sums to
its single integer value. -/
theorem claim8_witness :
    sumTrophysetLike (.dict [("a", .int 2), ("b", .str "x")]) = .ok 2 := by
  have h := claim8_dict_sum_all [("a", .int 2), ("b", .str "x")] (by decide)
  simpa [intOf] using h

/-- Equation for the item loop when the item has no trophy id: dropped. -/
theorem addGroupRows_cons_none (gid gname : String) (t : TrophyItem) (rest : List TrophyItem)
    (seen : List (String × Int)) (rows : List TrophyRow) (h : t.trophyId = Option.none) :
    addGroupRows gid gname (t :: rest) seen rows = addGroupRows gid gname rest seen rows := by
  simp only [addGroupRows, h]

/-- Equation for the item loop when the key was already seen: dropped. -/
theorem addGroupRows_cons_mem (gid gname : String) (t : TrophyItem) (rest : List TrophyItem)
    (seen : List (String × Int)) (rows : List TrophyRow) (tid : Int)
    (h : t.trophyId = some tid) (hmem : (gid, tid) ∈ seen) :
    addGroupRows gid gname (t :: rest) seen rows = addGroupRows gid gname rest seen rows := by
  simp only [addGroupRows, h, if_pos hmem]

/-- Equation for the item loop when the key is new: one row appended. -/
theorem addGroupRows_cons_new (gid gname : String) (t : TrophyItem) (rest : List TrophyItem)
    (seen : List (String × Int)) (rows : List TrophyRow) (tid : Int)
    (h : t.trophyId = some tid) (hmem : (gid, tid) ∉ seen) :
    addGroupRows gid gname (t :: rest) seen rows =
      addGroupRows gid gname rest ((gid, tid) :: seen)
        (rows ++ [⟨gid, gname, tid, t.name, t.detail, t.grade, t.earned, t.earnedRate,
          t.iconUrl⟩]) := by
  simp only [addGroupRows, h, if_neg hmem]

/-- Through the item loop, the seen set stays the reversed key list of the
accumulated rows. -/
theorem addGroupRows_seen_eq (gid gname : String) (items : List TrophyItem) :
    ∀ (seen : List (String × Int)) (rows : List TrophyRow),
      seen = (rows.map rowKey).reverse →
      (addGroupRows gid gname items seen rows).1 =
        ((addGroupRows gid gname items seen rows).2.map rowKey).reverse := by
  induction items with
  | nil => intro seen rows h; simpa [addGroupRows] using h
  | cons t rest ih =>
    intro seen rows h
    rcases htid : t.trophyId with _ | tid
    · rw [addGroupRows_cons_none gid gname t rest seen rows htid]
      exact ih seen rows h
    · by_cases hmem : (gid, tid) ∈ seen
      · rw [addGroupRows_cons_mem gid gname t rest seen rows tid htid hmem]
        exact ih seen rows h
      · rw [addGroupRows_cons_new gid gname t rest seen rows tid htid hmem]
        apply ih
        rw [h]
        simp [rowKey]

/-- Through the item loop, the seen set stays duplicate-free. -/
theorem addGroupRows_seen_nodup (gid gname : String) (items : List TrophyItem) :
    ∀ (seen : List (String × Int)) (rows : List TrophyRow),
      seen.Nodup → (addGroupRows gid gname items seen rows).1.Nodup := by
  induction items with
  | nil => intro seen rows h; simpa [addGroupRows] using h
  | cons t rest ih =>
    intro seen rows h
    rcases htid : t.trophyId with _ | tid
    · rw [addGroupRows_cons_none gid gname t rest seen rows htid]
      exact ih seen rows h
    · by_cases hmem : (gid, tid) ∈ seen
      · rw [addGroupRows_cons_mem gid gname t rest seen rows tid htid hmem]
        exact ih seen rows h
      · rw [addGroupRows_cons_new gid gname t rest seen rows tid htid hmem]
        exact ih _ _ (List.nodup_cons.mpr ⟨hmem, h⟩)

/-- The item loop only grows the seen set. -/
theorem addGroupRows_seen_mono (gid gname : String) (items : List TrophyItem) :
    ∀ (seen : List (String × Int)) (rows : List TrophyRow) (x : String × Int),
      x ∈ seen → x ∈ (addGroupRows gid gname items seen rows).1 := by
  induction items with
  | nil => intro seen rows x hx; simpa [addGroupRows] using hx
  | cons t rest ih =>
    intro seen rows x hx
    rcases htid : t.trophyId with _ | tid
    · rw [addGroupRows_cons_none gid gname t rest seen rows htid]
      exact ih seen rows x hx
    · by_cases hmem : (gid, tid) ∈ seen
      · rw [addGroupRows_cons_mem gid gname t rest seen rows tid htid hmem]
        exact ih seen rows x hx
      · rw [addGroupRows_cons_new gid gname t rest seen rows tid htid hmem]
        exact ih _ _ x (List.mem_cons_of_mem _ hx)

/-- Every item of the group carrying a trophy id ends in the seen set. -/
theorem addGroupRows_covers (gid gname : String) (items : List TrophyItem) :
    ∀ (seen : List (String × Int)) (rows : List TrophyRow) (t : TrophyItem) (tid : Int),
      t ∈ items → t.trophyId = some tid →
      (gid, tid) ∈ (addGroupRows gid gname items seen rows).1 := by
  induction items with
  | nil => intro seen rows t tid ht; cases ht
  | cons hd rest ih =>
    intro seen rows t tid ht htid
    rcases List.mem_cons.mp ht with heq | hrest
    · subst heq
      by_cases hmem : (gid, tid) ∈ seen
      · rw [addGroupRows_cons_mem gid gname t rest seen rows tid htid hmem]
        exact addGroupRows_seen_mono gid gname rest seen rows _ hmem
      · rw [addGroupRows_cons_new gid gname t rest seen rows tid htid hmem]
        exact addGroupRows_seen_mono gid gname rest _ _ _ (List.mem_cons_self _ _)
    · rcases htid2 : hd.trophyId with _ | tid2
      · rw [addGroupRows_cons_none gid gname hd rest seen rows htid2]
        exact ih seen rows t tid hrest htid
      · by_cases hmem : (gid, tid2) ∈ seen
        · rw [addGroupRows_cons_mem gid gname hd rest seen rows tid2 htid2 hmem]
          exact ih seen rows t tid hrest htid
        · rw [addGroupRows_cons_new gid gname hd rest seen rows tid2 htid2 hmem]
          exact ih _ _ t tid hrest htid

/-- The group loop preserves the seen/rows correspondence. -/
theorem cacheLoop_seen_eq (remote : GroupRemote) (title : String) (gt : Rat) :
    ∀ (gids : List String) (st : CacheLoopState),
      st.seen = (st.rows.map rowKey).reverse →
      (gids.foldl (cacheGroupStep remote title gt) st).seen =
        (((gids.foldl (cacheGroupStep remote title gt) st).rows.map rowKey)).reverse := by
  intro gids
  induction gids with
  | nil => intro st h; exact h
  | cons g rest ih =>
    intro st h
    simp only [List.foldl_cons]
    apply ih
    unfold cacheGroupStep
    exact addGroupRows_seen_eq _ _ _ _ _ h

/-- The group loop preserves duplicate-freedom of the seen set. -/
theorem cacheLoop_seen_nodup (remote : GroupRemote) (title : String) (gt : Rat) :
    ∀ (gids : List String) (st : CacheLoopState),
      st.seen.Nodup → (gids.foldl (cacheGroupStep remote title gt) st).seen.Nodup := by
  intro gids
  induction gids with
  | nil => intro st h; exact h
  | cons g rest ih =>
    intro st h
    simp only [List.foldl_cons]
    apply ih
    unfold cacheGroupStep
    exact addGroupRows_seen_nodup _ _ _ _ _ h

/-- The group loop only grows the seen set. -/
theorem cacheLoop_seen_mono (remote : GroupRemote) (title : String) (gt : Rat) :
    ∀ (gids : List String) (st : CacheLoopState) (x : String × Int),
      x ∈ st.seen → x ∈ (gids.foldl (cacheGroupStep remote title gt) st).seen := by
  intro gids
  induction gids with
  | nil => intro st x hx; exact hx
  | cons g rest ih =>
    intro st x hx
    simp only [List.foldl_cons]
    apply ih
    unfold cacheGroupStep
    exact addGroupRows_seen_mono _ _ _ _ _ x hx

/-- Through the group loop, every item of every processed group that carries
a trophy id is covered by the seen set. -/
theorem cacheLoop_covers (remote : GroupRemote) (title : String) (gt : Rat) :
    ∀ (gids : List String) (st : CacheLoopState),
      (∀ gid items t tid, (gid, items) ∈ st.groups → t ∈ items → t.trophyId = some tid →
        (gid, tid) ∈ st.seen) →
      (∀ gid items t tid,
        (gid, items) ∈ (gids.foldl (cacheGroupStep remote title gt) st).groups →
        t ∈ items → t.trophyId = some tid →
        (gid, tid) ∈ (gids.foldl (cacheGroupStep remote title gt) st).seen) := by
  intro gids
  induction gids with
  | nil => intro st h; exact h
  | cons g rest ih =>
    intro st h
    simp only [List.foldl_cons]
    apply ih
    intro gid items t tid hg ht htid
    unfold cacheGroupStep at hg ⊢
    rcases List.mem_append.mp hg with hold | hnew
    · exact addGroupRows_seen_mono _ _ _ _ _ _ (h gid items t tid hold ht htid)
    · have : gid = g ∧ items = (fetchGroupWithRetry remote.fetch g gt).1 := by
        simpa using hnew
      obtain ⟨hgid, hitems⟩ := this
      subst hgid
      subst hitems
      exact addGroupRows_covers _ _ _ _ _ t tid ht htid

/-- A member of a duplicate-free key list is counted exactly once. -/
theorem count_eq_one_of_nodup_mem (a : String × Int) (l : List (String × Int))
    (hn : l.Nodup) (hm : a ∈ l) : l.count a = 1 := by
  induction l with
  | nil => cases hm
  | cons b t ih =>
    rcases List.mem_cons.mp hm with h | h
    · subst h
      rw [List.count_cons_self]
      have hnot : a ∉ t := (List.nodup_cons.mp hn).1
      rw [List.count_eq_zero.mpr hnot]
    · have hne : a ≠ b := by
        rintro rfl
        exact (List.nodup_cons.mp hn).1 h
      rw [List.count_cons_of_ne hne]
      exact ih (List.nodup_cons.mp hn).2 h

/-- Deduplication over one full run of the group loop from the empty state:
the accumulated row keys are duplicate-free, and every processed item
carrying a trophy id is represented by exactly one row key. -/
theorem cacheLoopRun_dedup (remote : GroupRemote) (title : String) (gt : Rat)
    (gids : List String) :
    ((gids.foldl (cacheGroupStep remote title gt) ⟨[], [], [], []⟩).rows.map rowKey).Nodup ∧
    (∀ gid items t tid,
      (gid, items) ∈ (gids.foldl (cacheGroupStep remote title gt) ⟨[], [], [], []⟩).groups →
      t ∈ items → t.trophyId = some tid →
      ((gids.foldl (cacheGroupStep remote title gt) ⟨[], [], [], []⟩).rows.map rowKey).count
        (gid, tid) = 1) := by
  have hseen := cacheLoop_seen_eq remote title gt gids ⟨[], [], [], []⟩ (by simp)
  have hnodup := cacheLoop_seen_nodup remote title gt gids ⟨[], [], [], []⟩ (by simp)
  have hcov := cacheLoop_covers remote title gt gids ⟨[], [], [], []⟩
    (by intro gid items t tid hg; simp at hg)
  rw [hseen] at hnodup hcov
  have hnodup2 := List.nodup_reverse.mp hnodup
  refine ⟨hnodup2, ?_⟩
  intro gid items t tid hg ht htid
  have hmem := hcov gid items t tid hg ht htid
  rw [List.mem_reverse] at hmem
  exact count_eq_one_of_nodup_mem _ _ hnodup2 hmem

/-- Claim C9: within one title the written cache rows carry pairwise-distinct
(GroupID, TrophyID) keys, and every trophy item of a processed group that
carries a trophy id yields exactly one row with its key — duplicates anywhere
in the title's listing collapse to one row. -/
theorem claim9_dedup (remote : GroupRemote) (title platLabel : String) (gt : Rat) (mg : Int) :
    ((cacheTrophiesFor remote title platLabel gt mg).rows.map rowKey).Nodup ∧
    (∀ gid items t tid,
      (gid, items) ∈ (cacheTrophiesFor remote title platLabel gt mg).groups →
      t ∈ items → t.trophyId = some tid →
      ((cacheTrophiesFor remote title platLabel gt mg).rows.map rowKey).count (gid, tid) = 1) := by
  unfold cacheTrophiesFor
  rcases hplat : platformFromLabel platLabel with _ | p
  · constructor
    · simp
    · intro gid items t tid hg
      simp at hg
  · exact cacheLoopRun_dedup remote title gt _

/-- Claim C10: a title with an empty remote platform set gets the empty
string as Platform label and total 0 with no remote call — even when a
previous-snapshot row matches and could supply a total — and the
detail-caching procedure for such a record resolves no platform, so it
reaches no remote call (no summary fetch, no group fetch), produces zero
rows, and leaves every cache file unwritten. -/
theorem claim10_empty_platforms (remote : Remote) (prevDf : List TitleRow) (t : RemoteTitle)
    (h : t.platforms = []) :
    (titlesPassRecord remote prevDf t).row.platform = "" ∧
    (titlesPassRecord remote prevDf t).row.trophiesTotal = 0 ∧
    (titlesPassRecord remote prevDf t).calls = [] ∧
    (∀ (gremote : GroupRemote) (gt : Rat) (mg : Int),
      cacheTrophiesFor gremote (titlesPassRecord remote prevDf t).row.title
          (titlesPassRecord remote prevDf t).row.platform gt mg =
        ⟨[], [], [], false⟩) ∧
    (∀ (gremote : GroupRemote) (gt : Rat) (mg : Int) (fs : TrophyFS) (path : String),
      cacheWriteEffect fs path
        (cacheTrophiesFor gremote (titlesPassRecord remote prevDf t).row.title
          (titlesPassRecord remote prevDf t).row.platform gt mg).rows = fs) := by
  have hprim : choosePrimaryPlatform t.platforms = Option.none := by
    rw [h]
    rfl
  have hlab : (titlesPassRecord remote prevDf t).row.platform = "" := by
    unfold titlesPassRecord
    rw [hprim]
    rfl
  have htot : (titlesPassRecord remote prevDf t).row.trophiesTotal = 0 := by
    unfold titlesPassRecord
    rw [hprim]
  have hcalls : (titlesPassRecord remote prevDf t).calls = [] := by
    unfold titlesPassRecord
    rw [hprim]
  have hcache : ∀ (gremote : GroupRemote) (gt : Rat) (mg : Int),
      cacheTrophiesFor gremote (titlesPassRecord remote prevDf t).row.title
          (titlesPassRecord remote prevDf t).row.platform gt mg = ⟨[], [], [], false⟩ := by
    intro gremote gt mg
    rw [hlab]
    unfold cacheTrophiesFor
    rfl
  refine ⟨hlab, htot, hcalls, hcache, ?_⟩
  intro gremote gt mg fs path
  rw [hcache gremote gt mg]
  unfold cacheWriteEffect
  simp

/-- Claim C10, witness: a title with an empty platform set whose NPCommID
matches a previous row (same earned count 2 and percent 10, stored total 10)
still records Platform "" and total 0, and its detail-caching run is the
empty no-fetch result. -/
theorem claim10_witness :
    (titlesPassRecord ⟨fun _ _ => 7, fun _ _ => 9⟩ [⟨"T", "NPWR9", "", 2, 10, 10⟩]
        ⟨"T", "NPWR9", [], 10, 2⟩).row.platform = "" ∧
    (titlesPassRecord ⟨fun _ _ => 7, fun _ _ => 9⟩ [⟨"T", "NPWR9", "", 2, 10, 10⟩]
        ⟨"T", "NPWR9", [], 10, 2⟩).row.trophiesTotal = 0 ∧
    (titlesPassRecord ⟨fun _ _ => 7, fun _ _ => 9⟩ [⟨"T", "NPWR9", "", 2, 10, 10⟩]
        ⟨"T", "NPWR9", [], 10, 2⟩).calls = [] := by
  have h := claim10_empty_platforms ⟨fun _ _ => 7, fun _ _ => 9⟩ [⟨"T", "NPWR9", "", 2, 10, 10⟩]
    ⟨"T", "NPWR9", [], 10, 2⟩ rfl
  exact ⟨h.1, h.2.1, h.2.2.1⟩

end PsnSync
